import Mathlib

/-!
Verification of `wowid3-server/gen_secret.py`.

The script is a straight-line program:

  secret = secrets.token_hex(32)
  print(secret)
  if len(sys.argv) > 1 and sys.argv[1] == '--save':
      with open('.tracker_secret', 'w') as f:
          f.write(secret)
      print(f"\nSecret saved to .tracker_secret", file=sys.stderr)

We embed it as a pure function producing a trace of observable events.
The external inputs are made explicit parameters:
  * `argv`    - the full `sys.argv` list (element 0 is the script name);
  * `bytes`   - the 32 random bytes returned by the OS entropy source
                (each a natural number below 256);
  * `writeOk` - whether opening/writing `.tracker_secret` succeeds;
  * `errMsg`  - the text Python emits on standard error when the file
                operation raises an uncaught `OSError`.
-/

namespace GenSecret

/-- Observable events of one run: a write to standard output, a write to
standard error, or a (successful, complete) write of a file's contents. -/
inductive Event where
  | out (s : String)
  | err (s : String)
  | fileWrite (name : String) (content : String)
  deriving DecidableEq, Repr

/-- Hex digit character for a nibble, as produced by `binascii.hexlify`:
0-9 map to '0'-'9' (codes 48-57), 10-15 map to 'a'-'f' (codes 97-102). -/
def hexDigit (n : Nat) : Char :=
  if n < 10 then Char.ofNat (48 + n) else Char.ofNat (87 + n)

/-- One byte rendered as two hex digits, high nibble first. -/
def byteToHex (b : Nat) : String :=
  String.mk [hexDigit (b / 16), hexDigit (b % 16)]

/-- The encoding performed by `secrets.token_hex`: each byte becomes two
lowercase hex digits, concatenated with no separators. -/
def tokenHex : List Nat → String
  | [] => ""
  | b :: bs => byteToHex b ++ tokenHex bs

/-- The guard `len(sys.argv) > 1 and sys.argv[1] == '--save'`: the index-1
access happens only under the proof that the length check succeeded,
mirroring Python's short-circuit `and`. -/
def saveRequested (argv : List String) : Bool :=
  if h : 1 < argv.length then argv.get ⟨1, h⟩ == "--save" else false

/-- The confirmation text written to standard error on a successful save:
`print` of `"\nSecret saved to .tracker_secret"` appends a final newline,
so the message is preceded by a blank line. -/
def confirmMsg : String := "\nSecret saved to .tracker_secret\n"

/-- The event trace of one run of the script.  Standard output receives the
secret and a newline first; then, only when the save guard holds, the file
is written and the confirmation goes to standard error - or, if the file
operation fails, the I/O error text goes to standard error instead. -/
def genSecretTrace (argv : List String) (bytes : List Nat)
    (writeOk : Bool) (errMsg : String) : List Event :=
  Event.out (tokenHex bytes ++ "\n") ::
    (if saveRequested argv then
      (if writeOk then
        [Event.fileWrite ".tracker_secret" (tokenHex bytes),
         Event.err confirmMsg]
      else
        [Event.err errMsg])
    else [])

/-- The process exit code: 0 on success, 1 when the uncaught `OSError`
from the save path terminates the interpreter. -/
def genSecretExit (argv : List String) (writeOk : Bool) : Nat :=
  if saveRequested argv && !writeOk then 1 else 0

/-- Everything a run writes to standard output, in order. -/
def stdoutOf : List Event → String
  | [] => ""
  | Event.out s :: es => s ++ stdoutOf es
  | _ :: es => stdoutOf es

/-- Everything a run writes to standard error, in order. -/
def stderrOf : List Event → String
  | [] => ""
  | Event.err s :: es => s ++ stderrOf es
  | _ :: es => stderrOf es

/-- Contents of `.tracker_secret` after the run, given its contents before
(`none` when the file does not exist). -/
def fileOf (fs0 : Option String) : List Event → Option String
  | [] => fs0
  | Event.fileWrite n c :: es =>
      fileOf (if n = ".tracker_secret" then some c else fs0) es
  | _ :: es => fileOf fs0 es

/-- The sixteen lowercase hex characters. -/
def hexChars : List Char := "0123456789abcdef".data

/-! Helper lemmas about the encoding. -/

theorem byteToHex_length (b : Nat) : (byteToHex b).length = 2 := rfl

theorem tokenHex_length (bytes : List Nat) :
    (tokenHex bytes).length = 2 * bytes.length := by
  induction bytes with
  | nil => rfl
  | cons b bs ih =>
      simp [tokenHex, String.length_append, byteToHex_length, ih,
        List.length_cons, Nat.mul_succ, Nat.add_comm]

theorem hexDigit_mem (n : Nat) (h : n < 16) : hexDigit n ∈ hexChars := by
  revert h; revert n; decide

theorem tokenHex_mem (bytes : List Nat) (hb : ∀ b ∈ bytes, b < 256) :
    ∀ c ∈ (tokenHex bytes).data, c ∈ hexChars := by
  induction bytes with
  | nil => intro c hc; simp [tokenHex] at hc
  | cons b bs ih =>
      intro c hc
      have hblt : b < 256 := hb b (by simp)
      have h1 : b / 16 < 16 := Nat.div_lt_of_lt_mul (by omega)
      have h2 : b % 16 < 16 := Nat.mod_lt _ (by omega)
      simp only [tokenHex, String.data_append, List.mem_append] at hc
      rcases hc with hc | hc
      · simp only [byteToHex, String.mk, List.mem_cons, List.not_mem_nil] at hc
        rcases hc with rfl | hc
        · exact hexDigit_mem _ h1
        · rcases hc with rfl | hc
          · exact hexDigit_mem _ h2
          · exact absurd hc (by simp)
      · exact ih (fun x hx => hb x (by simp [hx])) c hc

theorem hexChars_no_newline : ∀ c ∈ hexChars, c ≠ Char.ofNat 10 := by decide

theorem hexDigit_inj (a b : Nat) (ha : a < 16) (hb : b < 16)
    (h : hexDigit a = hexDigit b) : a = b := by
  revert h; revert hb; revert b; revert ha; revert a; decide

theorem tokenHex_inj (l1 l2 : List Nat) (h1 : ∀ b ∈ l1, b < 256)
    (h2 : ∀ b ∈ l2, b < 256) (h : tokenHex l1 = tokenHex l2) : l1 = l2 := by
  induction l1 generalizing l2 with
  | nil =>
      cases l2 with
      | nil => rfl
      | cons b bs =>
          have := congrArg String.length h
          rw [tokenHex_length, tokenHex_length] at this
          simp at this
  | cons a as ih =>
      cases l2 with
      | nil =>
          have := congrArg String.length h
          rw [tokenHex_length, tokenHex_length] at this
          simp at this
      | cons b bs =>
          have hdata : (tokenHex (a :: as)).data = (tokenHex (b :: bs)).data := by rw [h]
          simp only [tokenHex, String.data_append, byteToHex, String.mk,
            List.cons_append, List.nil_append, List.cons.injEq] at hdata
          obtain ⟨e1, e2, e3⟩ := hdata
          have ha : a < 256 := h1 a (by simp)
          have hb : b < 256 := h2 b (by simp)
          have eab : a = b := by
            have d1 : a / 16 = b / 16 :=
              hexDigit_inj _ _ (Nat.div_lt_of_lt_mul (by omega))
                (Nat.div_lt_of_lt_mul (by omega)) e1
            have d2 : a % 16 = b % 16 :=
              hexDigit_inj _ _ (Nat.mod_lt _ (by omega)) (Nat.mod_lt _ (by omega)) e2
            omega
          have etail : tokenHex as = tokenHex bs := String.ext e3
          have := ih bs (fun x hx => h1 x (List.mem_cons_of_mem _ hx))
            (fun x hx => h2 x (List.mem_cons_of_mem _ hx)) etail
          rw [eab, this]

/-! Helper lemmas about the guard and the trace. -/

theorem saveRequested_iff (argv : List String) :
    saveRequested argv = true ↔ argv.get? 1 = some "--save" := by
  unfold saveRequested
  split
  · rename_i h
    rw [List.get?_eq_get h]
    simp
  · rename_i h
    rw [List.get?_eq_none.mpr (by omega)]
    simp

theorem saveRequested_short (argv : List String) (h : argv.length ≤ 1) :
    saveRequested argv = false := by
  unfold saveRequested
  split
  · omega
  · rfl

theorem trace_no_save (argv : List String) (bytes : List Nat)
    (writeOk : Bool) (errMsg : String) (h : saveRequested argv = false) :
    genSecretTrace argv bytes writeOk errMsg =
      [Event.out (tokenHex bytes ++ "\n")] := by
  simp [genSecretTrace, h]

theorem trace_save_ok (argv : List String) (bytes : List Nat)
    (errMsg : String) (h : saveRequested argv = true) :
    genSecretTrace argv bytes true errMsg =
      [Event.out (tokenHex bytes ++ "\n"),
       Event.fileWrite ".tracker_secret" (tokenHex bytes),
       Event.err confirmMsg] := by
  simp [genSecretTrace, h]

theorem trace_save_fail (argv : List String) (bytes : List Nat)
    (errMsg : String) (h : saveRequested argv = true) :
    genSecretTrace argv bytes false errMsg =
      [Event.out (tokenHex bytes ++ "\n"), Event.err errMsg] := by
  simp [genSecretTrace, h]

theorem stdoutOf_trace (argv : List String) (bytes : List Nat)
    (writeOk : Bool) (errMsg : String) :
    stdoutOf (genSecretTrace argv bytes writeOk errMsg) =
      tokenHex bytes ++ "\n" := by
  unfold genSecretTrace
  rcases hs : saveRequested argv with _ | _ <;>
    rcases hw : writeOk with _ | _ <;>
      simp [stdoutOf]

end GenSecret

namespace GenSecret

/-! Claim theorems. -/

/-- C1: for every invocation, standard output receives exactly one line: the
64-character lowercase-hex secret followed by a single newline, and nothing
else, regardless of the arguments and of whether the file write succeeds. -/
theorem stdout_single_hex_line (argv : List String) (bytes : List Nat)
    (writeOk : Bool) (errMsg : String)
    (hlen : bytes.length = 32) (hb : ∀ b ∈ bytes, b < 256) :
    stdoutOf (genSecretTrace argv bytes writeOk errMsg) = tokenHex bytes ++ "\n" ∧
    (tokenHex bytes).length = 64 ∧
    (∀ c ∈ (tokenHex bytes).data, c ∈ hexChars) ∧
    (∀ c ∈ (tokenHex bytes).data, c ≠ '\n') := by
  refine ⟨stdoutOf_trace argv bytes writeOk errMsg, ?_, tokenHex_mem bytes hb, ?_⟩
  · rw [tokenHex_length, hlen]
  · intro c hc
    exact hexChars_no_newline c (tokenHex_mem bytes hb c hc)

theorem stdout_single_hex_line_witness :
    stdoutOf (genSecretTrace ["gen_secret.py"] (List.replicate 32 0) true "") =
      tokenHex (List.replicate 32 0) ++ "\n" ∧
    (tokenHex (List.replicate 32 0)).length = 64 ∧
    (∀ c ∈ (tokenHex (List.replicate 32 0)).data, c ∈ hexChars) ∧
    (∀ c ∈ (tokenHex (List.replicate 32 0)).data, c ≠ '\n') :=
  stdout_single_hex_line ["gen_secret.py"] (List.replicate 32 0) true ""
    (by decide) (by decide)

/-- C2: with first argument exactly `--save` and a successful write, the file
`.tracker_secret` ends up containing exactly the printed 64-character hex
string with no trailing newline, whatever the file held before. -/
theorem save_writes_exact_secret (argv : List String) (bytes : List Nat)
    (fs0 : Option String) (errMsg : String)
    (harg : argv.get? 1 = some "--save")
    (hlen : bytes.length = 32) (hb : ∀ b ∈ bytes, b < 256) :
    fileOf fs0 (genSecretTrace argv bytes true errMsg) = some (tokenHex bytes) ∧
    stdoutOf (genSecretTrace argv bytes true errMsg) = tokenHex bytes ++ "\n" ∧
    (tokenHex bytes).length = 64 ∧
    (∀ c ∈ (tokenHex bytes).data, c ≠ '\n') := by
  have hs : saveRequested argv = true := (saveRequested_iff argv).mpr harg
  refine ⟨?_, stdoutOf_trace argv bytes true errMsg, by rw [tokenHex_length, hlen], ?_⟩
  · rw [trace_save_ok argv bytes errMsg hs]
    simp [fileOf]
  · intro c hc
    exact hexChars_no_newline c (tokenHex_mem bytes hb c hc)

theorem save_writes_exact_secret_witness :
    fileOf (some "old") (genSecretTrace ["gen_secret.py", "--save"]
        (List.replicate 32 0) true "") = some (tokenHex (List.replicate 32 0)) ∧
    stdoutOf (genSecretTrace ["gen_secret.py", "--save"] (List.replicate 32 0) true "") =
      tokenHex (List.replicate 32 0) ++ "\n" ∧
    (tokenHex (List.replicate 32 0)).length = 64 ∧
    (∀ c ∈ (tokenHex (List.replicate 32 0)).data, c ≠ '\n') :=
  save_writes_exact_secret ["gen_secret.py", "--save"] (List.replicate 32 0)
    (some "old") "" (by decide) (by decide) (by decide)

/-- C3: the file side effect happens only when the first argument is exactly
`--save`: any other invocation (no arguments, a different first argument, or
`--save` only in a later position) emits no file-write event at all and
leaves `.tracker_secret` unchanged. -/
theorem no_save_leaves_fs_unchanged (argv : List String) (bytes : List Nat)
    (fs0 : Option String) (writeOk : Bool) (errMsg : String)
    (harg : argv.get? 1 ≠ some "--save") :
    fileOf fs0 (genSecretTrace argv bytes writeOk errMsg) = fs0 ∧
    (∀ n c, Event.fileWrite n c ∉ genSecretTrace argv bytes writeOk errMsg) := by
  have hs : saveRequested argv = false := by
    rcases h : saveRequested argv with _ | _
    · rfl
    · exact absurd ((saveRequested_iff argv).mp h) harg
  rw [trace_no_save argv bytes writeOk errMsg hs]
  constructor
  · simp [fileOf]
  · intro n c
    simp

theorem no_save_leaves_fs_unchanged_witness :
    fileOf none (genSecretTrace ["gen_secret.py", "foo", "--save"] [0] true "") = none ∧
    (∀ n c, Event.fileWrite n c ∉
      genSecretTrace ["gen_secret.py", "foo", "--save"] [0] true "") :=
  no_save_leaves_fs_unchanged ["gen_secret.py", "foo", "--save"] [0] none true ""
    (by decide)

/-- C4: an invocation whose first argument is any string other than `--save`
produces exactly the same event trace as an invocation with no arguments at
all (same standard output, no file write, no standard error) and exits 0. -/
theorem other_arg_equiv_no_arg (argv : List String) (a : String)
    (ha : argv.get? 1 = some a) (hne : a ≠ "--save")
    (prog : String) (bytes : List Nat) (writeOk : Bool) (errMsg : String) :
    genSecretTrace argv bytes writeOk errMsg =
      genSecretTrace [prog] bytes writeOk errMsg ∧
    stderrOf (genSecretTrace argv bytes writeOk errMsg) = "" ∧
    genSecretExit argv writeOk = 0 ∧
    genSecretExit argv writeOk = genSecretExit [prog] writeOk := by
  have hs : saveRequested argv = false := by
    rcases h : saveRequested argv with _ | _
    · rfl
    · have h2 := (saveRequested_iff argv).mp h
      rw [ha] at h2
      exact absurd (Option.some.inj h2) hne
  have hp : saveRequested [prog] = false := saveRequested_short _ (by simp)
  refine ⟨?_, ?_, ?_, ?_⟩
  · rw [trace_no_save _ _ _ _ hs, trace_no_save _ _ _ _ hp]
  · rw [trace_no_save _ _ _ _ hs]
    simp [stderrOf]
  · simp [genSecretExit, hs]
  · simp [genSecretExit, hs, hp]

theorem other_arg_equiv_no_arg_witness :
    genSecretTrace ["gen_secret.py", "foo"] [0] true "" =
      genSecretTrace ["gen_secret.py"] [0] true "" ∧
    stderrOf (genSecretTrace ["gen_secret.py", "foo"] [0] true "") = "" ∧
    genSecretExit ["gen_secret.py", "foo"] true = 0 ∧
    genSecretExit ["gen_secret.py", "foo"] true = genSecretExit ["gen_secret.py"] true :=
  other_arg_equiv_no_arg ["gen_secret.py", "foo"] "foo" (by decide) (by decide)
    "gen_secret.py" [0] true ""

/-- C5: when the save path's file write fails, the process exits non-zero,
the I/O error text is what standard error receives (no retry, no fallback),
the secret line on standard output stands, and that line is the very first
event of the run - standard output is written before any file operation. -/
theorem write_failure_fatal (argv : List String) (bytes : List Nat)
    (errMsg : String) (harg : argv.get? 1 = some "--save") :
    genSecretExit argv false ≠ 0 ∧
    stderrOf (genSecretTrace argv bytes false errMsg) = errMsg ∧
    stdoutOf (genSecretTrace argv bytes false errMsg) = tokenHex bytes ++ "\n" ∧
    (genSecretTrace argv bytes false errMsg).head? =
      some (Event.out (tokenHex bytes ++ "\n")) := by
  have hs : saveRequested argv = true := (saveRequested_iff argv).mpr harg
  refine ⟨?_, ?_, stdoutOf_trace argv bytes false errMsg, ?_⟩
  · simp [genSecretExit, hs]
  · rw [trace_save_fail _ _ _ hs]
    simp [stderrOf]
  · rw [trace_save_fail _ _ _ hs]
    rfl

theorem write_failure_fatal_witness :
    genSecretExit ["gen_secret.py", "--save"] false ≠ 0 ∧
    stderrOf (genSecretTrace ["gen_secret.py", "--save"] [0] false "Permission denied") =
      "Permission denied" ∧
    stdoutOf (genSecretTrace ["gen_secret.py", "--save"] [0] false "Permission denied") =
      tokenHex [0] ++ "\n" ∧
    (genSecretTrace ["gen_secret.py", "--save"] [0] false "Permission denied").head? =
      some (Event.out (tokenHex [0] ++ "\n")) :=
  write_failure_fatal ["gen_secret.py", "--save"] [0] "Permission denied" (by decide)

/-- C6: with first argument exactly `--save` and a successful write, standard
error receives exactly the confirmation message naming `.tracker_secret`,
which begins with a blank line; standard output still holds only the secret
line, and the exit code is 0. -/
theorem save_confirmation_on_stderr (argv : List String) (bytes : List Nat)
    (errMsg : String) (harg : argv.get? 1 = some "--save") :
    stderrOf (genSecretTrace argv bytes true errMsg) = confirmMsg ∧
    confirmMsg = "\nSecret saved to .tracker_secret\n" ∧
    confirmMsg.data.head? = some '\n' ∧
    stdoutOf (genSecretTrace argv bytes true errMsg) = tokenHex bytes ++ "\n" ∧
    genSecretExit argv true = 0 := by
  have hs : saveRequested argv = true := (saveRequested_iff argv).mpr harg
  refine ⟨?_, rfl, by decide, stdoutOf_trace argv bytes true errMsg, ?_⟩
  · rw [trace_save_ok _ _ _ hs]
    simp [stderrOf]
  · simp [genSecretExit]

theorem save_confirmation_on_stderr_witness :
    stderrOf (genSecretTrace ["gen_secret.py", "--save"] [0] true "") = confirmMsg ∧
    confirmMsg = "\nSecret saved to .tracker_secret\n" ∧
    confirmMsg.data.head? = some '\n' ∧
    stdoutOf (genSecretTrace ["gen_secret.py", "--save"] [0] true "") =
      tokenHex [0] ++ "\n" ∧
    genSecretExit ["gen_secret.py", "--save"] true = 0 :=
  save_confirmation_on_stderr ["gen_secret.py", "--save"] [0] "" (by decide)

/-- C7: the emitted secret is the lowercase hexadecimal rendering of the 32
random bytes: the encoding maps every byte sequence to a string of twice its
length over the hex alphabet, is injective on byte sequences, and 32 bytes
give exactly the 64 characters printed to standard output. -/
theorem tokenHex_encoding_correct (argv : List String) (bytes : List Nat)
    (writeOk : Bool) (errMsg : String)
    (hlen : bytes.length = 32) (hb : ∀ b ∈ bytes, b < 256) :
    stdoutOf (genSecretTrace argv bytes writeOk errMsg) = tokenHex bytes ++ "\n" ∧
    (tokenHex bytes).length = 64 ∧
    (∀ c ∈ (tokenHex bytes).data, c ∈ hexChars) ∧
    (∀ l : List Nat, (tokenHex l).length = 2 * l.length) ∧
    (∀ l1 l2 : List Nat, (∀ b ∈ l1, b < 256) → (∀ b ∈ l2, b < 256) →
      tokenHex l1 = tokenHex l2 → l1 = l2) :=
  ⟨stdoutOf_trace argv bytes writeOk errMsg, by rw [tokenHex_length, hlen],
    tokenHex_mem bytes hb, tokenHex_length, tokenHex_inj⟩

theorem tokenHex_encoding_correct_witness :
    stdoutOf (genSecretTrace ["gen_secret.py"] (List.replicate 32 255) false "") =
      tokenHex (List.replicate 32 255) ++ "\n" ∧
    (tokenHex (List.replicate 32 255)).length = 64 ∧
    (∀ c ∈ (tokenHex (List.replicate 32 255)).data, c ∈ hexChars) ∧
    (∀ l : List Nat, (tokenHex l).length = 2 * l.length) ∧
    (∀ l1 l2 : List Nat, (∀ b ∈ l1, b < 256) → (∀ b ∈ l2, b < 256) →
      tokenHex l1 = tokenHex l2 → l1 = l2) :=
  tokenHex_encoding_correct ["gen_secret.py"] (List.replicate 32 255) false ""
    (by decide) (by decide)

/-- C9: the argument inspection is total and guarded: it is a total function
of the argument list, it consults index 1 exactly when the length check
succeeds (so it holds precisely when element 1 exists and equals `--save`),
and on any list of length at most one - including the empty list - it is
false without faulting. -/
theorem argv_guard_total (argv : List String) :
    (saveRequested argv = true ↔ argv.get? 1 = some "--save") ∧
    (argv.length ≤ 1 → saveRequested argv = false) ∧
    saveRequested [] = false :=
  ⟨saveRequested_iff argv, saveRequested_short argv, by decide⟩

theorem argv_guard_total_witness :
    (saveRequested ["gen_secret.py"] = true ↔
      ["gen_secret.py"].get? 1 = some "--save") ∧
    (["gen_secret.py"].length ≤ 1 → saveRequested ["gen_secret.py"] = false) ∧
    saveRequested [] = false :=
  argv_guard_total ["gen_secret.py"]

/-- C10: the confirmation message on standard error implies the file write
succeeded: whenever the confirmation event is in the trace (and the I/O
error text is not itself the confirmation text), the write flag is true and
the trace contains the `.tracker_secret` write strictly before the
confirmation. -/
theorem confirmation_implies_file_written (argv : List String) (bytes : List Nat)
    (writeOk : Bool) (errMsg : String) (hne : errMsg ≠ confirmMsg)
    (hmem : Event.err confirmMsg ∈ genSecretTrace argv bytes writeOk errMsg) :
    writeOk = true ∧ saveRequested argv = true ∧
    ∃ i j, i < j ∧
      (genSecretTrace argv bytes writeOk errMsg).get? i =
        some (Event.fileWrite ".tracker_secret" (tokenHex bytes)) ∧
      (genSecretTrace argv bytes writeOk errMsg).get? j =
        some (Event.err confirmMsg) := by
  rcases hs : saveRequested argv with _ | _
  · rw [trace_no_save _ _ _ _ hs] at hmem
    simp at hmem
  · rcases hw : writeOk with _ | _
    · rw [hw, trace_save_fail _ _ _ hs] at hmem
      simp at hmem
      exact absurd hmem.symm hne
    · refine ⟨rfl, rfl, 1, 2, by omega, ?_, ?_⟩
      · rw [trace_save_ok _ _ _ hs]
        rfl
      · rw [trace_save_ok _ _ _ hs]
        rfl

theorem confirmation_implies_file_written_witness :
    true = true ∧ saveRequested ["gen_secret.py", "--save"] = true ∧
    ∃ i j, i < j ∧
      (genSecretTrace ["gen_secret.py", "--save"] [0] true "boom").get? i =
        some (Event.fileWrite ".tracker_secret" (tokenHex [0])) ∧
      (genSecretTrace ["gen_secret.py", "--save"] [0] true "boom").get? j =
        some (Event.err confirmMsg) :=
  confirmation_implies_file_written ["gen_secret.py", "--save"] [0] true "boom"
    (by decide) (by decide)

end GenSecret
